import Mathlib

/-!
# Verification of the orion-core event-scheduling engine

Shallow embedding of the playable queue / Player scheduler
(`src/serve/event/Player.js`), the Block/WatchDog harness and `ST.timeout`
(`src/serve/orion.js`), and the selection validator
(`src/serve/future/Component.js`).

Modelling conventions:
* JS objects become Lean structures; `undefined`/absent fields become `Option`.
* DOM nodes are identified by `Nat`; external collaborators (`ST.find`, the
  animation probe, visibility/attachment predicates, the gesture-completion
  queue, callback bodies) are supplied through an `Env` record.
* Mutable shared JS objects (playables are shared by reference between the
  queue, `pendingEvent` and back-references) are modelled by keying their
  mutable parts (`state`, resolved elements, `waitingFor`/`waitingState`)
  on the playable `id` inside the `Player` state.
* The host timer is modelled by an explicit clock on the `Player`; the
  cooperative drain (`playNext`/`playEvent`/`playFn`) becomes a fuel-indexed
  step function.  Callback functions (`fn`) are defunctionalised: a playable
  stores an index into `Env.progs`, and a body is the list of `add` batches
  the callback performs, plus a completion mode (arity-0 synchronous return,
  synchronous throw, or waiting for an explicit `done` that never comes).
-/

namespace Orion

/-- A playable's `target` / `relatedTarget` specifier (Player.js lines 183-197,
1064-1161): absent, a locator string, a direct DOM node, a raw numeric
back-reference (pre-promotion), or a promoted reference to the playable with
the given `id`. -/
inductive Target where
  | none
  | loc (s : String)
  | node (dom : Nat)
  | backRef (n : Int)
  | ref (id : Nat)
deriving Repr, DecidableEq

/-- The JS `visible` / `available` configs take `undefined`/`true` (require),
`false` (require the opposite) or `null` (skip the check) — Player.js lines
974-986, 1101-1157. -/
inductive PolicyOpt where
  | require
  | forbid
  | skip
deriving Repr, DecidableEq

/-- Completion behaviour of a callback playable's `fn` (Player.js lines
350-378): a zero-arity function that completes on return, a function that
throws synchronously, or a function declaring a `done` argument that is
never called from inside the modelled run. -/
inductive FnMode where
  | syncZeroArity
  | throwsErr (msg : String)
  | asyncAwait
deriving Repr, DecidableEq

/-- A custom `ready` override.  The only one produced by Player.js itself is
`isTapGestureReady` (lines 577-585), attached to the trailing `wait` of a tap
expansion. -/
inductive ReadyHook where
  | tapGesture
deriving Repr, DecidableEq

/-- `ST.event.Playable` (Player.js lines 858-1219).  The mutable `state`
string and the cached `targetEl`/`relatedEl` wrappers live in the `Player`
state keyed by `id` (shared-object semantics); everything here is the
configuration data plus `waitStartTime` (lines 1207-1214, initially 0). -/
structure Playable where
  id : Nat := 0
  type : Option String := Option.none
  fn : Option Nat := Option.none
  fnMode : FnMode := FnMode.syncZeroArity
  target : Target := Target.none
  relatedTarget : Target := Target.none
  delay : Option Nat := Option.none
  timeout : Option Nat := Option.none
  animation : Option Bool := Option.none
  visible : PolicyOpt := PolicyOpt.require
  available : PolicyOpt := PolicyOpt.require
  ready : Option ReadyHook := Option.none
  x : Option Int := Option.none
  y : Option Int := Option.none
  metaKey : Option Bool := Option.none
  shiftKey : Option Bool := Option.none
  ctrlKey : Option Bool := Option.none
  button : Option Nat := Option.none
  detail : Option Nat := Option.none
  caret : Option Nat := Option.none
  text : Option String := Option.none
  key : Option String := Option.none
  waitStartTime : Nat := 0
deriving Repr, DecidableEq

/-- External collaborators and options for a run (spec §6): the callback
bodies table, `ST.find`, the DOM attachment/visibility probes, the animation
probe, the optional gesture-completion queue, a descriptor for timeout
messages (`dom.id ? '#'+id : dom.tagName`), and the relevant `ST.options`. -/
structure Env where
  progs : List (List (List Playable)) := []
  find : String → Option Nat := fun _ => Option.none
  attached : Nat → Bool := fun _ => true
  visibleE : Nat → Bool := fun _ => true
  animationsActive : Bool := false
  gestureComplete : Option (Nat → String → Bool) := Option.none
  domDescr : Nat → String := fun _ => "DIV"
  optionsTimeout : Nat := 30000
  handleExceptions : Bool := true
  waitInterval : Nat := 10

/-- `ST.event.Player` state (Player.js lines 8-857).  `pendingFn` is the
nested-enqueue insertion marker: JS `false` becomes `Option.none`, a number
`k` becomes `some k`.  `stateLog`, `resolved` and `waiting` are prepend-only
association lists keyed by playable id (most recent entry first), standing in
for mutation of the shared playable objects.  `fired` records the names of
events fired on the Player (`"error"`, `"end"`), `errorMsgs` the messages
carried by `error` events, and `injected` the `(type, targetEl)` pairs handed
to the Injector. -/
structure Player where
  events : List Playable := []
  pendingEvent : Option Playable := Option.none
  pendingFn : Option Nat := Option.none
  paused : Nat := 0
  nextId : Nat := 1
  eventDelay : Option Nat := Option.none
  typingDelay : Option Nat := Option.none
  timeout : Option Nat := Option.none
  pauseForAnimations : Bool := true
  clock : Nat := 1
  resolved : List ((Nat × Bool) × Nat) := []
  waiting : List (Nat × (Option String × Option String)) := []
  stateLog : List (Nat × String) := []
  byId : List (Nat × Playable) := []
  fired : List String := []
  errorMsgs : List String := []
  injected : List (String × Option Nat) := []
  gestureActive : Bool := false
deriving Repr, DecidableEq

/-- Current state of the playable with the given id (`"init"` before any
assignment, per Player.js line 1004). -/
def Player.getSt (p : Player) (id : Nat) : String :=
  match p.stateLog.find? (fun kv => kv.1 == id) with
  | some kv => kv.2
  | Option.none => "init"

/-- Record a state assignment `playable.state = s`. -/
def Player.setSt (id : Nat) (s : String) (p : Player) : Player :=
  { p with stateLog := (id, s) :: p.stateLog }

/-- Cached resolved element (`targetEl` when `related = false`, `relatedEl`
when `related = true`) of the playable with the given id. -/
def Player.resolvedEl (p : Player) (id : Nat) (related : Bool) : Option Nat :=
  match p.resolved.find? (fun kv => kv.1 == (id, related)) with
  | some kv => some kv.2
  | Option.none => Option.none

/-- Store/overwrite a resolved element for a playable (the JS code either
assigns `me[elName]` or rebinds `el.dom`; both collapse to an update of the
id-keyed cache). -/
def Player.storeRes (id : Nat) (related : Bool) (dom : Nat) (p : Player) : Player :=
  { p with resolved := ((id, related), dom) :: p.resolved }

/-- `waitingFor` / `waitingState` of a playable (Player.js lines 1196-1205). -/
def Player.getWaiting (p : Player) (id : Nat) : Option String × Option String :=
  match p.waiting.find? (fun kv => kv.1 == id) with
  | some kv => kv.2
  | Option.none => (Option.none, Option.none)

/-- `setWaiting` (Player.js lines 1196-1205): clearing is represented by
writing `(none, none)`; returns `true` iff cleared. -/
def Player.setWaiting (id : Nat) (wf ws : Option String) (p : Player) : Player × Bool :=
  ({ p with waiting := (id, (wf, ws)) :: p.waiting }, wf.isNone)

/-! ## Enqueue: `ST.event.Player.add` (Player.js lines 128-242) -/

/-- The Player-level defaults consulted while promoting configs in `add`. -/
structure AddCtx where
  eventDelay : Option Nat
  pauseForAnimations : Bool
  playerTimeout : Option Nat
  optionsTimeout : Nat

/-- JS `queue[queue.length + t]` for a numeric `target` (Player.js lines
186-187, 193-194): promote an in-range back-reference to a direct reference
to the earlier playable's id; out of range yields `undefined`. -/
def resolveBackRef (queue : List Playable) (n : Int) : Target :=
  let i : Int := (queue.length : Int) + n
  if i < 0 then Target.none
  else
    match queue.get? i.toNat with
    | some q => Target.ref q.id
    | Option.none => Target.none

/-- `ST.event.Playable` constructor, object-config case (Player.js lines
873-891): copy the config and default `delay` to 0 when an `fn` is present. -/
def Playable.construct (e : Playable) : Playable :=
  if e.fn.isSome && e.delay.isNone then { e with delay := some 0 } else e

/-- Promote one config inside `add`'s loop (Player.js lines 175-223): resolve
numeric back-references against the queue built so far, pre-resolve direct
node targets, default `delay` (only for real events, not `wait`s or fns),
`animation` and `timeout` (forced to `0` when `ST.options.timeout` is 0),
and assign the id.  Returns the promoted playable together with the resolved
element cache entries it produces (`targetEl` for node targets is stamped at
enqueue time). -/
def promoteOne (ctx : AddCtx) (queue : List Playable) (id : Nat) (e0 : Playable) :
    Playable × List ((Nat × Bool) × Nat) :=
  let e := e0.construct
  let tgtRes : Target × List ((Nat × Bool) × Nat) :=
    match e.target with
    | Target.backRef n => (resolveBackRef queue n, [])
    | Target.node d => (Target.node d, [((id, false), d)])
    | t => (t, [])
  let rtgtRes : Target × List ((Nat × Bool) × Nat) :=
    match e.relatedTarget with
    | Target.backRef n => (resolveBackRef queue n, [])
    | Target.node d => (Target.node d, [((id, true), d)])
    | t => (t, [])
  let delay :=
    if e.delay.isNone && e.type.isSome && e.type != some "wait" then ctx.eventDelay
    else e.delay
  let animation :=
    if e.animation.isNone then some ctx.pauseForAnimations else e.animation
  let timeout :=
    if ctx.optionsTimeout = 0 then some 0
    else if e.timeout.isNone then
      match ctx.playerTimeout with
      | some t => some t
      | Option.none => some ctx.optionsTimeout
    else e.timeout
  ({ e with target := tgtRes.1, relatedTarget := rtgtRes.1, delay := delay,
            animation := animation, timeout := timeout, id := id },
   tgtRes.2 ++ rtgtRes.2)

/-- The context `add` builds from the player (`me.eventDelay`,
`me.pauseForAnimations`, `me.timeout`, `ST.options.timeout`). -/
def Player.addCtx (p : Player) (env : Env) : AddCtx :=
  ⟨p.eventDelay, p.pauseForAnimations, p.timeout, env.optionsTimeout⟩

/-- The body of `add`'s promotion loop: push each promoted config onto the
queue under construction, recording id, `state = 'queued'` and the registry
entry.  Returns the updated player bookkeeping and the grown queue. -/
def Player.addLoop (ctx : AddCtx) : Player → List Playable → List Playable →
    Player × List Playable
  | p, queue, [] => (p, queue)
  | p, queue, c :: rest =>
      let pr := promoteOne ctx queue p.nextId c
      let p' := { p with
        nextId := p.nextId + 1,
        resolved := pr.2 ++ p.resolved,
        stateLog := (pr.1.id, "queued") :: p.stateLog,
        byId := (pr.1.id, pr.1) :: p.byId }
      Player.addLoop ctx p' (queue ++ [pr.1]) rest

/-- `ST.event.Player.add` (Player.js lines 128-242).  With no explicit index
the insertion point is the `pendingFn` marker when a playable `fn` is running
(which is then advanced by the raw count), else the tail.  The new items are
spliced in at `index`:  JS builds `queue = _events.slice(0, index)` (the
whole array when not inserting), pushes the promoted items, then appends the
events at and beyond `index` — i.e. `take index ++ new ++ drop index`.
The trailing conditional `playNext` kick (lines 235-241) is performed by the
drain interpreter, which models the host timer. -/
def Player.add (index? : Option Nat) (cfgs : List Playable) (env : Env)
    (p : Player) : Player :=
  let length := p.events.length
  let count := cfgs.length
  let ixPf : Nat × Option Nat :=
    match index? with
    | some i => (i, p.pendingFn)
    | Option.none =>
      match p.pendingFn with
      | Option.none => (length, Option.none)
      | some k => (k, some (k + count))
  let p1 := { p with pendingFn := ixPf.2 }
  let res := Player.addLoop (p.addCtx env) p1 (p.events.take ixPf.1) cfgs
  { res.1 with events := res.2 ++ p.events.drop ixPf.1 }

/-! ## Readiness: `ST.event.Playable.ready` (Player.js lines 1013-1161) -/

/-- `animationsDone` (Player.js lines 1035-1051): when the `animation` config
is truthy and the animation probe reports active animations, set waiting
(`'animations'`, `'complete'`); otherwise clear. -/
def Player.animationsDone (env : Env) (e : Playable) (p : Player) : Player × Bool :=
  if e.animation.getD false && env.animationsActive then
    p.setWaiting e.id (some "animations") (some "complete")
  else
    p.setWaiting e.id Option.none Option.none

/-- The visibility tail of `targetReady` (Player.js lines 1149-1160),
executed once an element is in hand. -/
def Player.visCheck (env : Env) (e : Playable) (name : String) (el : Nat)
    (p : Player) : Player × Bool :=
  match e.visible with
  | PolicyOpt.skip => p.setWaiting e.id Option.none Option.none
  | PolicyOpt.forbid =>
      if env.visibleE el then p.setWaiting e.id (some name) (some "not visible")
      else p.setWaiting e.id Option.none Option.none
  | PolicyOpt.require =>
      if env.visibleE el then p.setWaiting e.id Option.none Option.none
      else p.setWaiting e.id (some name) (some "visible")

/-- `targetReady` (Player.js lines 1064-1161), for `target` (`related =
false`) or `relatedTarget` (`related = true`).  Faithfully follows the
source's branch order: a falsy target is immediately ready; a cached element
(own or pulled from a target playable) goes through the `absent` check and —
for string locators — the in-place `el.dom` re-resolution; an uncached
element is looked up (from the target playable's cache or via `ST.find`),
with the availability policy deciding readiness when nothing is found;
finally the visibility policy is applied to whatever element is in hand.
Note the source marks a *cached, detached* element as waiting `'absent'`
when `available === false`; we translate that branch as written. -/
def Player.targetReady (env : Env) (e : Playable) (related : Bool)
    (p : Player) : Player × Bool :=
  let name := if related then "relatedTarget" else "target"
  let tgt := if related then e.relatedTarget else e.target
  let absent := e.available == PolicyOpt.forbid
  match tgt with
  | Target.none => p.setWaiting e.id Option.none Option.none
  | _ =>
    let cached := p.resolvedEl e.id related
    let pulled : Player × Option Nat :=
      match cached with
      | some d => (p, some d)
      | Option.none =>
        match tgt with
        | Target.ref qid =>
          match p.resolvedEl qid related with
          | some d => (p.storeRes e.id related d, some d)
          | Option.none => (p, Option.none)
        | _ => (p, Option.none)
    let p := pulled.1
    match pulled.2 with
    | some d =>
      if absent then
        if !env.attached d then p.setWaiting e.id (some name) (some "absent")
        else p.setWaiting e.id Option.none Option.none
      else
        let refind : Player × Nat :=
          match tgt with
          | Target.loc s =>
            match env.find s with
            | some dom => if dom != d then (p.storeRes e.id related dom, dom) else (p, d)
            | Option.none => (p, d)
          | _ => (p, d)
        Player.visCheck env e name refind.2 refind.1
    | Option.none =>
      let dom : Option Nat :=
        match tgt with
        | Target.ref qid => p.resolvedEl qid related
        | Target.loc s => env.find s
        | Target.node d => some d
        | _ => Option.none
      match dom with
      | some d =>
        let p := p.storeRes e.id related d
        if absent then p.setWaiting e.id (some name) (some "absent")
        else Player.visCheck env e name d p
      | Option.none =>
        if absent then p.setWaiting e.id Option.none Option.none
        else if e.available != PolicyOpt.skip then
          p.setWaiting e.id (some name) (some "available")
        else p.setWaiting e.id Option.none Option.none

/-- `ready` / `isReady` (Player.js lines 1013-1028): either the custom
`ready` hook — the only one produced inside Player.js is
`isTapGestureReady` (lines 577-585), which consults the gesture-completion
queue with the target playable's id and does no `setWaiting` bookkeeping —
or the composite `animationsDone() && targetReady() && targetReady(true)`
with JS short-circuiting.  The modelled checks cannot throw, so the
`handleExceptions` try/catch of `isReady` is the identity here. -/
def Player.readyCheck (env : Env) (e : Playable) (p : Player) : Player × Bool :=
  match e.ready with
  | some ReadyHook.tapGesture =>
    match env.gestureComplete with
    | Option.none => (p, true)
    | some complete =>
      match e.target with
      | Target.ref qid => (p, complete qid "tap")
      | _ => (p, false)
  | Option.none =>
    let r1 := p.animationsDone env e
    if !r1.2 then r1
    else
      let r2 := r1.1.targetReady env e false
      if !r2.2 then r2
      else r2.1.targetReady env e true

/-! ## The wait/timeout gate of `playEvent` (Player.js lines 381-404) -/

/-- Outcome of one `playEvent` readiness gate. -/
inductive PlayDecision where
  | timedOut
  | wait (e : Playable)
  | play
deriving Repr, DecidableEq

/-- The not-ready gate of `playEvent` (Player.js lines 390-404): time out
only when a `waitStartTime` has been stamped, the timeout is nonzero and
`now - waitStartTime >= timeout`; otherwise stamp `waitStartTime` on the
first not-ready observation and re-poll.  A ready playable proceeds to
play.  (`event.timeout` may be `undefined`, which like `0` is falsy in
JS — both are `getD 0` here.) -/
def playEventCheck (ready : Bool) (now : Nat) (e : Playable) : PlayDecision :=
  if !ready then
    if e.waitStartTime != 0 && e.timeout.getD 0 != 0
        && decide (e.timeout.getD 0 ≤ now - e.waitStartTime) then
      PlayDecision.timedOut
    else
      PlayDecision.wait
        (if e.waitStartTime = 0 then { e with waitStartTime := now } else e)
  else PlayDecision.play

/-! ## Failure surface: `cleanup`, `fail`, `doError`, `doTimeout`, `onEnd`
(Player.js lines 244-263, 463-537, 587-596) -/

/-- `cleanup` (Player.js lines 244-263): drop the pending event, reset the
`pendingFn` marker, cancel the pending timer and empty the queue. -/
def Player.cleanup (p : Player) : Player :=
  { p with pendingEvent := Option.none, pendingFn := Option.none, events := [] }

/-- `onEnd` (Player.js lines 587-596): deactivate the gesture queue if one
is set up and fire the `end` event. -/
def Player.onEnd (p : Player) : Player :=
  { p with gestureActive := false, fired := p.fired ++ ["end"] }

/-- `fail` (Player.js lines 463-479): only when an event is pending or the
queue is non-empty, empty the queue, fire `error` with the message, then
fire `end`.  Otherwise do nothing. -/
def Player.fail (msg : String) (p : Player) : Player :=
  if p.pendingEvent.isSome || !p.events.isEmpty then
    let q := p.cleanup
    Player.onEnd
      { q with fired := q.fired ++ ["error"], errorMsgs := q.errorMsgs ++ [msg] }
  else p

/-- `doError` (Player.js lines 481-484). -/
def Player.doError (msg : String) (p : Player) : Player :=
  p.fail ("Failed with error \"" ++ msg ++ "\"")

/-- The back-reference walk of `doTimeout` (Player.js lines 500-520): follow
the chain of target playables until an original locator (string), a direct
node, or a cached element is found.  Returns `(selector?, dom?)`. -/
def Player.walkLocator (p : Player) (related : Bool) :
    Nat → Playable → Option String × Option Nat
  | 0, _ => (Option.none, Option.none)
  | fuel + 1, src =>
    match (if related then src.relatedTarget else src.target) with
    | Target.none => (Option.none, p.resolvedEl src.id related)
    | Target.ref qid =>
      match p.byId.find? (fun kv => kv.1 == qid) with
      | some kv => Player.walkLocator p related fuel kv.2
      | Option.none => (Option.none, Option.none)
    | Target.node d => (Option.none, some d)
    | Target.loc s => (some s, Option.none)
    | Target.backRef _ => (Option.none, Option.none)

/-- `doTimeout` (Player.js lines 486-537): only a `pending` or `playing`
playable can time out; it is marked `done` and an error message of the form
`Timeout waiting for <waitingFor[ (selector)]> to be <waitingState>[ for
<type>]` is composed and passed to `fail`. -/
def Player.doTimeout (env : Env) (e : Playable) (p : Player) : Player :=
  let st := p.getSt e.id
  if st != "pending" && st != "playing" then p
  else
    let p := p.setSt e.id "done"
    let w := p.getWaiting e.id
    let s := w.1.getD "event"
    let toBe := w.2.getD "ready"
    let s :=
      if s == "target" || s == "relatedTarget" then
        let related := s == "relatedTarget"
        let walked := p.walkLocator related (p.byId.length + 1) e
        let sel :=
          match walked.2 with
          | some d => some (env.domDescr d)
          | Option.none => walked.1
        match sel with
        | some t => s ++ " (" ++ t ++ ")"
        | Option.none => s
      else s
    let toBe :=
      match e.type with
      | some ty => toBe ++ " for " ++ ty
      | Option.none => toBe
    p.fail ("Timeout waiting for " ++ s ++ " to be " ++ toBe)

/-- The `WatchDog` callback installed by `playFn` (Player.js lines 334-344),
in its expiry branch: a nonzero watchdog error routes to `doTimeout` on the
(still-`playing`) playable. -/
def Player.fnWatchDogExpire (env : Env) (e : Playable) (p : Player) : Player :=
  p.doTimeout env e

/-! ## Pause / resume (Player.js lines 281-309) -/

/-- JS truthiness of the `pendingFn` marker: `false` and `0` are falsy. -/
def Player.truthyPendingFn (p : Player) : Bool :=
  match p.pendingFn with
  | some (_ + 1) => true
  | _ => false

/-- `pause` (Player.js lines 281-299): bump the pause count, cancel the
pending timer, and — unless `pendingFn` is truthy — un-shift the pending
event back onto the queue head with `state = 'queued'`.  (As in the source,
`pendingEvent` itself is not cleared; see the `TODO` on line 297.) -/
def Player.pause (p : Player) : Player :=
  let p := { p with paused := p.paused + 1 }
  match p.pendingEvent with
  | some e =>
    if !p.truthyPendingFn then
      Player.setSt e.id "queued" { p with events := e :: p.events }
    else p
  | Option.none => p

/-! ## Tap and type expansion (Player.js lines 539-585, 598-676) -/

/-- `ST.applyIf` restricted to the modifier-key options copied by
`expandTap` (Player.js lines 542-548, 566-568): each of `metaKey`,
`shiftKey`, `ctrlKey`, `button`, `detail` is copied from the original tap
onto a sub-event only when not already present there. -/
def applyIfMods (dst src : Playable) : Playable :=
  { dst with
    metaKey := match dst.metaKey with | some v => some v | Option.none => src.metaKey,
    shiftKey := match dst.shiftKey with | some v => some v | Option.none => src.shiftKey,
    ctrlKey := match dst.ctrlKey with | some v => some v | Option.none => src.ctrlKey,
    button := match dst.button with | some v => some v | Option.none => src.button,
    detail := match dst.detail with | some v => some v | Option.none => src.detail }

/-- The four sub-event configs a tap expands into (Player.js lines 556-568):
`pointerdown` with the original target/delay/x/y, `pointerup` with target
back-reference −1 and zero delay, `click` with back-reference −2 and zero
delay, and a `wait` (back-reference −2) whose readiness is
`isTapGestureReady`; the modifier options are applied to every entry. -/
def tapEvents (e : Playable) : List Playable :=
  [ applyIfMods { type := some "pointerdown", target := e.target,
                  delay := e.delay, x := e.x, y := e.y } e,
    applyIfMods { type := some "pointerup", target := Target.backRef (-1),
                  delay := some 0, x := e.x, y := e.y } e,
    applyIfMods { type := some "click", target := Target.backRef (-2),
                  delay := some 0, x := e.x, y := e.y } e,
    applyIfMods { type := some "wait", target := Target.backRef (-2),
                  delay := some 0, x := e.x, y := e.y,
                  ready := some ReadyHook.tapGesture } e ]

/-- `expandTap` (Player.js lines 539-575): activate the gesture queue when
one is registered and splice the four sub-events at the queue head via
`add(0, tapEvents)`. -/
def Player.expandTap (env : Env) (e : Playable) (p : Player) : Player :=
  let p := if env.gestureComplete.isSome then { p with gestureActive := true } else p
  p.add (some 0) (tapEvents e) env

/-- `expandType` (Player.js lines 598-676), with the toolkit-specific
focus-element redirection (lines 607-629, an Ext JS collaborator concern)
elided: the resolved target element is used directly.  A `text` expands to a
`keydown`/`keyup` pair per character, a single `key` to one pair; with
neither, `none` is returned and the caller just plays the next event.
The first event inherits `event.delay || me.eventDelay` and the `caret`. -/
def Player.expandType (env : Env) (e : Playable) (p : Player) : Option Player :=
  let target : Target :=
    match p.resolvedEl e.id false with
    | some d => Target.node d
    | Option.none => Target.none
  let pairs : Option (List Playable) :=
    match e.text with
    | some txt =>
      if txt.length ≠ 0 then
        some (txt.toList.foldr
          (fun ch acc =>
            { type := some "keydown", target := target,
              key := some (String.mk [ch]), delay := p.typingDelay } ::
            { type := some "keyup", target := target,
              key := some (String.mk [ch]), delay := some 0 } :: acc) [])
      else
        match e.key with
        | some k =>
          some [ { type := some "keydown", target := target, key := some k },
                 { type := some "keyup", target := target, key := some k,
                   delay := some 0 } ]
        | Option.none => Option.none
    | Option.none =>
      match e.key with
      | some k =>
        some [ { type := some "keydown", target := target, key := some k },
               { type := some "keyup", target := target, key := some k,
                 delay := some 0 } ]
      | Option.none => Option.none
  match pairs with
  | some evs =>
    let d0 := match e.delay with
      | some n => if n = 0 then p.eventDelay else some n
      | Option.none => p.eventDelay
    let evs :=
      match evs with
      | first :: rest =>
        { first with delay := d0,
                     caret := match e.caret with
                              | some c => some c
                              | Option.none => first.caret } :: rest
      | [] => []
    some (p.add (some 0) evs env)
  | Option.none => Option.none

/-! ## The cooperative drain: `playNext` / `playEvent` / `playFn`
(Player.js lines 311-461)

The host timer loop is modelled as a fuel-indexed step function.  A `Mode`
tag selects which of the mutually recursive pieces runs next:

* `.next` — `playNext` (line 311): when nothing is pending and not paused,
  shift the head event into `pending` and schedule `playEvent` after its
  delay; an empty queue fires `onEnd`.
* `.gate e` — the scheduled `playEvent` call (line 381): run the readiness
  gate; time out, re-poll after `waitInterval`, or play.
* `.runFn e i` — `playFn` (line 329) for the callback with body `progs[i]`.

The clock advances by the scheduled delay / `waitInterval` exactly where the
source arms `playEventSoon`. -/
inductive Mode where
  | next
  | gate (e : Playable)
  | runFn (e : Playable) (fnIdx : Nat)

/-- One fuel-bounded cooperative drain of the Player (see `Mode`). -/
def Player.step (env : Env) : Nat → Mode → Player → Player
  | 0, _, p => p
  | fuel + 1, Mode.next, p =>
      if p.pendingEvent.isSome || p.paused != 0 then p
      else
        match p.events with
        | [] => p.onEnd
        | e :: rest =>
          let p := { p with events := rest, pendingEvent := some e }
          let p := Player.setSt e.id "pending" p
          Player.step env fuel (Mode.gate e)
            { p with clock := p.clock + e.delay.getD 0 }
  | fuel + 1, Mode.gate e, p =>
      let r := p.readyCheck env e
      let p := r.1
      match playEventCheck r.2 p.clock e with
      | PlayDecision.timedOut => p.doTimeout env e
      | PlayDecision.wait e' =>
          Player.step env fuel (Mode.gate e')
            { p with clock := p.clock + env.waitInterval,
                     pendingEvent := some e' }
      | PlayDecision.play =>
          let p := Player.setSt e.id "playing" p
          match e.fn with
          | some i => Player.step env fuel (Mode.runFn e i) p
          | Option.none =>
            let p := { p with pendingEvent := Option.none }
            match e.type with
            | some "tap" =>
                let p := p.expandTap env e
                Player.step env fuel Mode.next (Player.setSt e.id "done" p)
            | some "type" =>
                let p := (p.expandType env e).getD p
                Player.step env fuel Mode.next (Player.setSt e.id "done" p)
            | some ty =>
                let p :=
                  if ty != "wait" then
                    { p with injected :=
                        p.injected ++ [(ty, p.resolvedEl e.id false)] }
                  else p
                Player.step env fuel Mode.next (Player.setSt e.id "done" p)
            | Option.none =>
                Player.step env fuel Mode.next (Player.setSt e.id "done" p)
  | fuel + 1, Mode.runFn e i, p =>
      let p := { p with pendingFn := some 0 }
      match e.fnMode with
      | FnMode.throwsErr msg =>
          if env.handleExceptions then p.doError msg else p
      | FnMode.syncZeroArity =>
          let batches := env.progs.getD i []
          let p := batches.foldl (fun q b => q.add Option.none b env) p
          let p := { p with pendingFn := Option.none, pendingEvent := Option.none }
          Player.step env fuel Mode.next (Player.setSt e.id "done" p)
      | FnMode.asyncAwait =>
          let batches := env.progs.getD i []
          let p := batches.foldl (fun q b => q.add Option.none b env) p
          { p with pendingFn := Option.none, pendingEvent := Option.none }

/-! ## `ST.timeout` (orion.js lines 1219-1248) -/

/-- `ST.timeout(fn, scope, millisec)` (orion.js lines 1219-1233), modelled by
its effect: `some ms` when a timer is armed for `ms` milliseconds via
`ST.doTimeout`, `none` when the no-op `ST.emptyFn` is returned.  The delay
starts as `ST.options.timeout` and is replaced by an explicit `millisec`
only when `ST.options.timeout` is nonzero. -/
def STtimeout (optionsTimeout : Nat) (millisec : Option Nat) : Option Nat :=
  let ms := optionsTimeout
  let ms :=
    if ms != 0 && millisec.isSome then millisec.getD ms else ms
  if ms != 0 then some ms else Option.none

/-! ## `ST.WatchDog` (orion.js lines 1896-2007) -/

/-- `ST.WatchDog` state: whether the stored `callback` is still present,
the armed timer (with the `ms` it was armed for), the raw `me.timeout`
value, and the log of callback invocations (`none` for success, `some msg`
for an error). -/
structure WatchDog where
  callback : Bool := true
  timer : Option Nat := Option.none
  timeoutMs : Option Nat := Option.none
  calls : List (Option String) := []
deriving Repr, DecidableEq

/-- `cancel` (orion.js lines 1955-1962): when a timer is armed, clear both
`timer` and `timeout` and cancel the host timer. -/
def WatchDog.cancel (w : WatchDog) : WatchDog :=
  match w.timer with
  | some _ => { w with timer := Option.none, timeoutMs := Option.none }
  | Option.none => w

/-- `fire` (orion.js lines 1969-1979): cancel the timer; if the callback is
still stored, clear it and invoke it with the given error argument. -/
def WatchDog.fire (e : Option String) (w : WatchDog) : WatchDog :=
  let w := w.cancel
  if w.callback then { w with callback := false, calls := w.calls ++ [e] }
  else w

/-- The `done` function handed to user code (orion.js lines 1907-1909). -/
def WatchDog.done (w : WatchDog) : WatchDog :=
  w.fire Option.none

/-- `done.fail` / `me.fail` (orion.js lines 1911-1913). -/
def WatchDog.failUser (msg : String) (w : WatchDog) : WatchDog :=
  w.fire (some msg)

/-- `onTick` (orion.js lines 1981-1998): only when the timer is still armed,
compose the timeout message (the explicit/default distinction; the
`(N sec)` interpolation is elided), clear timer state and fire it as an
error. -/
def WatchDog.onTick (w : WatchDog) : WatchDog :=
  match w.timer with
  | Option.none => w
  | some _ =>
    let hasTimeout := w.timeoutMs.getD 0 != 0
    let msg :=
      if hasTimeout then "Timeout waiting for test step to complete."
      else "Timeout waiting for test step to complete." ++
        " If testing asynchronously, ensure that you have called done() in your spec."
    let w := { w with timer := Option.none, timeoutMs := Option.none }
    w.fire (some msg)

/-- `set` (orion.js lines 2000-2006): cancel any previous timer, store the
raw timeout and arm via `ST.timeout`. -/
def WatchDog.set (optionsTimeout : Nat) (timeout : Option Nat) (w : WatchDog) : WatchDog :=
  let w := w.cancel
  { w with timeoutMs := timeout, timer := STtimeout optionsTimeout timeout }

/-- The `ST.WatchDog` constructor (orion.js lines 1896-1920): store the
callback, wire `done`/`fail`, and `set(timeout)`. -/
def WatchDog.new (optionsTimeout : Nat) (timeout : Option Nat) : WatchDog :=
  WatchDog.set optionsTimeout timeout {}

/-- `destroy` (orion.js lines 1964-1967): cancel and drop the callback. -/
def WatchDog.destroy (w : WatchDog) : WatchDog :=
  let w := w.cancel
  { w with callback := false }

/-- The operations user code / the host timer can apply to a WatchDog. -/
inductive WdOp where
  | done
  | fail (msg : String)
  | tick
  | cancel
  | destroy
deriving Repr, DecidableEq

/-- Apply one operation. -/
def WatchDog.stepOp (w : WatchDog) : WdOp → WatchDog
  | WdOp.done => w.done
  | WdOp.fail msg => w.failUser msg
  | WdOp.tick => w.onTick
  | WdOp.cancel => w.cancel
  | WdOp.destroy => w.destroy

/-- Apply a sequence of operations. -/
def WatchDog.runOps (w : WatchDog) (ops : List WdOp) : WatchDog :=
  ops.foldl WatchDog.stepOp w

/-! ## `ST.Block` (orion.js lines 1400-1600)

The Block's interaction with its collaborators is closed over a finite
`Scenario`: whether the user function declares a `done` parameter
(`async`), whether it enqueued playables (`willPlay`, the
`ST.isPlayingEvents()` check of `invoke`), whether it threw (`throws`,
with `handleExceptions` on), whether it invoked the watchdog's `done`
synchronously during the call (`doneInFn`), whether the watchdog later
reports by expiry (`wdErr = true`) or by the user's `done` (`false`), and
the delivery order of the player-`end` and watchdog notifications
(`endFirst`).  Delivery of both notifications models the liveness of the
host timer and of the Player's `end` event. -/
structure Scenario where
  async : Bool
  willPlay : Bool
  throws : Bool
  doneInFn : Bool
  wdErr : Bool
  endFirst : Bool

/-- `ST.Block` state: `hasDone` is `_done !== null`; `watchDog` the block's
`me.watchDog` pointer; `wdAlive` whether the underlying WatchDog can still
fire (armed and not destroyed); `subEnd` the single-shot subscription to the
Player's `end`; `doneRecords` logs, for each call of the test framework's
`done`, the snapshot `(error-or-ex, me.watchDog, me.playing)` at entry to
`finish`. -/
structure Block where
  hasDone : Bool := true
  error : Bool := false
  calling : Bool := false
  playing : Bool := false
  watchDog : Bool := false
  wdAlive : Bool := false
  subEnd : Bool := false
  failures : Nat := 0
  doneRecords : List (Bool × Bool × Bool) := []
deriving Repr, DecidableEq

/-- `failure` (orion.js lines 1485-1505): report a failed expectation only
while `_done` is still present and the argument is truthy. -/
def Block.failureRep (ex : Bool) (b : Block) : Block :=
  if ex && b.hasDone then { b with failures := b.failures + 1 } else b

/-- `finish` (orion.js lines 1511-1546): when `_done` is still present,
report `me.error || ex` as a failure, clear `_done`, destroy the watchdog,
unsubscribe from and stop the player when `playing`, and call the test
framework's `done` (the event recorder is assumed absent). -/
def Block.finish (ex : Bool) (b : Block) : Block :=
  if b.hasDone then
    let snap : Bool × Bool × Bool := (b.error || ex, b.watchDog, b.playing)
    let b := b.failureRep (b.error || ex)
    let b := { b with hasDone := false, watchDog := false, wdAlive := false }
    let b := if b.playing then { b with playing := false, subEnd := false } else b
    { b with doneRecords := b.doneRecords ++ [snap] }
  else b

/-- `onWatchDog` (orion.js lines 1585-1599). -/
def Block.onWatchDog (err : Bool) (b : Block) : Block :=
  let b := { b with watchDog := false }
  let b := if err then b.failureRep true else b
  if !b.playing && !b.calling then b.finish false else b

/-- Delivery of the WatchDog's single shot to the block (guarded by the
WatchDog's once-only `fire`). -/
def Block.onWatchDogFire (err : Bool) (b : Block) : Block :=
  if b.wdAlive then Block.onWatchDog err { b with wdAlive := false } else b

/-- `onEndPlay` (orion.js lines 1577-1583), delivered through the
single-shot `end` subscription. -/
def Block.onEndPlayFire (b : Block) : Block :=
  if b.subEnd then
    let b := { b with subEnd := false, playing := false }
    if !b.watchDog then b.finish false else b
  else b

/-- `call` (orion.js lines 1456-1479): set `calling`, run the user function
(recording a thrown error), optionally observing a synchronous
`watchDog.done()` from inside the function, then clear `calling`. -/
def Block.call (sc : Scenario) (b : Block) : Block :=
  let b := { b with calling := true }
  let b := if sc.throws then { b with error := true } else b
  let b :=
    if sc.async && sc.doneInFn && !sc.throws then b.onWatchDogFire false else b
  { b with calling := false }

/-- `invoke` (orion.js lines 1548-1575): arm a WatchDog iff the user
function is async, call it, subscribe single-shot to the player's `end` iff
events are queued, and finish at once on error or when neither the player
nor a watchdog is outstanding. -/
def Block.invoke (sc : Scenario) : Block :=
  let b : Block := {}
  let b := if sc.async then { b with watchDog := true, wdAlive := true } else b
  let b := b.call sc
  let b := if sc.willPlay then { b with playing := true, subEnd := true } else b
  if b.error || (!b.playing && !b.watchDog) then b.finish false else b

/-- Deliver whichever of the player-`end` / watchdog notifications are still
outstanding after `invoke`, in the scenario's order. -/
def Block.deliverAll (sc : Scenario) (b : Block) : Block :=
  if sc.endFirst then (b.onEndPlayFire).onWatchDogFire sc.wdErr
  else (b.onWatchDogFire sc.wdErr).onEndPlayFire

/-- A complete block run: `invoke` followed by delivery of the outstanding
notifications. -/
def blockRun (sc : Scenario) : Block :=
  Block.deliverAll sc (Block.invoke sc)

/-! ## The selection validator
(`ST.future.SelectionModel`, Component.js lines 2208-2322) -/

/-- The store collaborator: an ordered record collection (records are
identified by `Nat`), an id projection for `getById`, and a property
projection for `query` addressing. -/
structure SelStore where
  data : List Nat := []
  recId : Nat → Nat := id
  prop : Nat → String → Option Nat := fun _ _ => Option.none

/-- `store.getById`. -/
def SelStore.getById (s : SelStore) (i : Nat) : Option Nat :=
  s.data.find? (fun r => s.recId r == i)

/-- `store.getAt`. -/
def SelStore.getAt (s : SelStore) (i : Nat) : Option Nat :=
  s.data.get? i

/-- `store.getRange(start, end)`, endpoints inclusive, both optional. -/
def SelStore.getRange (s : SelStore) (start? end? : Option Nat) : List Nat :=
  let st := start?.getD 0
  let en := end?.getD (s.data.length - 1)
  (s.data.drop st).take (en + 1 - st)

/-- The `config` object consumed by `_getRecords` / `_validateSelections`. -/
structure SelConfig where
  mode : String := "select"
  type : String := "id"
  ids : Option (List Nat) := Option.none
  indexes : Option (List Nat) := Option.none
  start? : Option Nat := Option.none
  end? : Option Nat := Option.none
  propertyName : String := ""
  propertyValue : Option Nat := Option.none

/-- `_getRecords` (Component.js lines 2274-2322): resolve the requested
records — all, by id, by index, by range, or by property query (a record
matches when the property value is defined and equal). -/
def SelStore.getRecords (s : SelStore) (options : SelConfig) : List Nat :=
  match options.type with
  | "all" => s.data
  | "id" => (options.ids.getD []).filterMap s.getById
  | "index" => (options.indexes.getD []).filterMap s.getAt
  | "range" => s.getRange options.start? options.end?
  | "query" =>
      s.data.filter (fun r =>
        match s.prop r options.propertyName with
        | some v => match options.propertyValue with
                    | some pv => v == pv
                    | Option.none => false
        | Option.none => false)
  | _ => []

/-- `(config.ids && config.ids.length) || (config.indexes &&
config.indexes.length)` (Component.js line 2214): `none` models a
non-numeric result (`undefined`); an empty `ids` list is falsy `0` and
falls through to `indexes`. -/
def expectedLen (ids indexes : Option (List Nat)) : Option Nat :=
  match ids with
  | some l =>
    if l.length != 0 then some l.length
    else match indexes with
         | some m => some m.length
         | Option.none => Option.none
  | Option.none =>
    match indexes with
    | some m => some m.length
    | Option.none => Option.none

/-- `_validateSelections` (Component.js lines 2208-2233): an id/index
request whose resolved-record count differs from the requested count fails
before any element comparison; otherwise count the resolved records present
in the current selection and require all of them (`select`) or none of them
(`deselect`). -/
def validateSelections (s : SelStore) (selections : List Nat)
    (config : SelConfig) : Bool :=
  let records := s.getRecords config
  let expectedLength := expectedLen config.ids config.indexes
  let useLength := config.mode == "select"
  let len := records.length
  if (match expectedLength with
      | some n => n != len
      | Option.none => false) then false
  else
    (records.countP (fun r => selections.contains r))
      == (if useLength then len else 0)

/-! ## The readiness poll loop, abstractly

`playEvent` → `playEventSoon` → `playEvent` … as a loop over observation
indices: at the k-th observation the playable sees readiness `readyAt k`
at host time `clockAt k`. -/

/-- Result of polling a playable to completion. -/
inductive PollResult where
  | played (k : Nat)
  | timedOutAt (k : Nat)
  | stalled
deriving Repr, DecidableEq

/-- Iterate the `playEvent` readiness gate (Player.js lines 390-404):
play at the first ready observation, time out when the gate says so,
otherwise re-poll with the stamped playable. -/
def pollRun (readyAt : Nat → Bool) (clockAt : Nat → Nat) :
    Nat → Nat → Playable → PollResult
  | 0, _, _ => PollResult.stalled
  | fuel + 1, k, e =>
    match playEventCheck (readyAt k) (clockAt k) e with
    | PlayDecision.play => PollResult.played k
    | PlayDecision.timedOut => PollResult.timedOutAt k
    | PlayDecision.wait e' => pollRun readyAt clockAt fuel (k + 1) e'

/-! ## Concrete scenario runs -/

/-- The ids of playables in the order they reached `playing`. -/
def playedOrder (p : Player) : List Nat :=
  ((p.stateLog.filter (fun kv => kv.2 == "playing")).reverse).map (fun kv => kv.1)

/-- The full `state` history of one playable, oldest first. -/
def historyOf (p : Player) (id : Nat) : List String :=
  ((p.stateLog.filter (fun kv => kv.1 == id)).reverse).map (fun kv => kv.2)

/-- Nested-enqueue scenario (spec §4.3 / S4): program 0 is a callback that
performs two internal `add` calls, enqueueing one playable each. -/
def nestedEnv : Env :=
  { progs := [ [ [ { type := some "click" } ], [ { type := some "keyup" } ] ] ] }

/-- Queue `outer().callback-style fn` then `next`: ids 1 (outer fn) and 2
(next); the nested adds create ids 3 and 4. -/
def nestedStart : Player :=
  Player.add Option.none
    [ { fn := some 0 }, { type := some "mousedown" } ] nestedEnv {}

/-- The drained nested-enqueue run. -/
def nestedRun : Player := Player.step nestedEnv 30 Mode.next nestedStart

/-- Tap scenario (spec S1): `#btn` resolves to element 7. -/
def tapEnv : Env :=
  { find := fun s => if s == "#btn" then some 7 else Option.none }

/-- One queued tap on `#btn` with a modifier key set. -/
def tapStart : Player :=
  Player.add Option.none
    [ { type := some "tap", target := Target.loc "#btn",
        x := some 10, y := some 10, metaKey := some true } ] tapEnv {}

/-- The drained tap run. -/
def tapRun : Player := Player.step tapEnv 30 Mode.next tapStart

/-- Timeout scenario (spec S3): `#missing` never resolves; a `click` with a
5 ms timeout is queued against the default environment (whose `find` always
fails). -/
def missingStart : Player :=
  Player.add Option.none
    [ { type := some "click", target := Target.loc "#missing",
        timeout := some 5 } ] ({} : Env) {}

/-- The run that times out waiting for `#missing`. -/
def missingRun : Player := Player.step {} 10 Mode.next missingStart

/-- An environment with a single empty callback body. -/
def fnEnv : Env := { progs := [ [] ] }

/-- One queued callback playable whose `fn` throws `"boom"`. -/
def throwStart : Player :=
  Player.add Option.none
    [ { fn := some 0, fnMode := FnMode.throwsErr "boom" } ] fnEnv {}

/-- The run in which the user callback throws (exception handling on). -/
def throwRun : Player := Player.step fnEnv 10 Mode.next throwStart

/-- One queued callback playable that declares a `done` argument and never
calls it. -/
def stalledStart : Player :=
  Player.add Option.none
    [ { fn := some 0, fnMode := FnMode.asyncAwait } ] fnEnv {}

/-- The run that goes idle with an empty queue while the callback playable
is still `playing` and awaiting its `done`. -/
def stalledRun : Player := Player.step fnEnv 10 Mode.next stalledStart

/-- The promoted callback playable of the stalled run (the object the
`playFn` watchdog closure holds). -/
def stalledFn : Playable := stalledStart.events.getD 0 {}

/-- The stalled run after the callback's WatchDog expires. -/
def stalledAfterWd : Player := Player.fnWatchDogExpire fnEnv stalledFn stalledRun

/-- A player paused from *inside* a pending callback playable's `fn` before
that `fn` has enqueued anything: `pendingFn` is `0` (the marker `playFn`
sets), the callback playable (id 1) is pending, and one more playable
(id 2) is queued behind it. -/
def pausedInsideFnP : Player :=
  { pendingEvent := some { id := 1, fn := some 0 },
    pendingFn := some 0,
    events := [ { id := 2, type := some "click" } ],
    stateLog := [(1, "playing"), (1, "pending"), (2, "queued"), (1, "queued")] }

/-- The same player paused from *outside* any callback (`pendingFn` is the
JS `false`), with the pending event awaiting its delay. -/
def pausedOutsideP : Player :=
  { pendingEvent := some { id := 1, type := some "mousedown" },
    pendingFn := Option.none,
    events := [ { id := 2, type := some "click" } ],
    stateLog := [(1, "pending"), (2, "queued"), (1, "queued")] }

/-- A player paused from inside a callback's `fn` *after* the callback has
already enqueued two playables (`pendingFn = 2`). -/
def pausedInsideAfterAddP : Player :=
  { pendingEvent := some { id := 1, fn := some 0 },
    pendingFn := some 2,
    events := [ { id := 3 }, { id := 4 }, { id := 2, type := some "click" } ],
    stateLog := [(4, "queued"), (3, "queued"), (1, "playing"), (1, "pending"),
                 (2, "queued"), (1, "queued")] }

/-- Field-wise "modifier keys copied from the tap": holds for a sub-event
whose literal config had no modifiers of its own. -/
def modsFrom (q e : Playable) : Prop :=
  q.metaKey = e.metaKey ∧ q.shiftKey = e.shiftKey ∧ q.ctrlKey = e.ctrlKey ∧
  q.button = e.button ∧ q.detail = e.detail

/-! ## Helper lemmas -/

/-- `add`'s promotion loop appends exactly one promoted playable per config
to the queue under construction and leaves the `pendingFn` marker alone. -/
theorem addLoop_append (ctx : AddCtx) (cfgs : List Playable) :
    ∀ (p : Player) (queue : List Playable),
      ∃ news : List Playable,
        (Player.addLoop ctx p queue cfgs).2 = queue ++ news ∧
        news.length = cfgs.length ∧
        (Player.addLoop ctx p queue cfgs).1.pendingFn = p.pendingFn := by
  induction cfgs with
  | nil =>
    intro p q
    exact ⟨[], by simp [Player.addLoop], by simp, rfl⟩
  | cons c rest ih =>
    intro p q
    obtain ⟨news, h1, h2, h3⟩ := ih
      { p with
        nextId := p.nextId + 1,
        resolved := (promoteOne ctx q p.nextId c).2 ++ p.resolved,
        stateLog := ((promoteOne ctx q p.nextId c).1.id, "queued") :: p.stateLog,
        byId := ((promoteOne ctx q p.nextId c).1.id, (promoteOne ctx q p.nextId c).1)
          :: p.byId }
      (q ++ [(promoteOne ctx q p.nextId c).1])
    refine ⟨(promoteOne ctx q p.nextId c).1 :: news, ?_, ?_, ?_⟩
    · rw [Player.addLoop, h1]; simp
    · simp [h2]
    · rw [Player.addLoop, h3]

/-- `fail` never touches the state log. -/
theorem stateLog_fail (p : Player) (m : String) :
    (p.fail m).stateLog = p.stateLog := by
  unfold Player.fail Player.cleanup Player.onEnd
  split <;> rfl

/-- `getSt` through `fail`. -/
theorem getSt_fail (p : Player) (m : String) (i : Nat) :
    (p.fail m).getSt i = p.getSt i := by
  unfold Player.getSt
  rw [stateLog_fail]

/-- `getSt` after `setSt` on the same id. -/
theorem getSt_setSt (p : Player) (i : Nat) (s : String) :
    (Player.setSt i s p).getSt i = s := by
  simp [Player.setSt, Player.getSt]

/-! ## C1 — nested callback enqueues splice at the `pendingFn` marker -/

/-- C1: while a playable callback is running, `pendingFn` holds the
insertion marker (set to 0 by `playFn` before the callback is invoked);
an `add` with no explicit index splices the new playables in at the marker
— before everything that was already queued beyond it — and advances the
marker by the number of items added.  Consequently, in the concrete
`outer().callback(() => { inner1(); inner2(); }).next()` scenario the play
order is outer (id 1), inner1 (id 3), inner2 (id 4), next (id 2). -/
theorem C1_nested_callback_splice :
    (∀ (env : Env) (p : Player) (cfgs : List Playable) (k : Nat),
        p.pendingFn = some k →
        ∃ news : List Playable,
          news.length = cfgs.length ∧
          (p.add Option.none cfgs env).events
            = p.events.take k ++ news ++ p.events.drop k ∧
          (p.add Option.none cfgs env).pendingFn = some (k + cfgs.length)) ∧
    playedOrder nestedRun = [1, 3, 4, 2] := by
  constructor
  · intro env p cfgs k hk
    obtain ⟨news, h1, h2, h3⟩ :=
      addLoop_append (p.addCtx env) cfgs { p with pendingFn := some (k + cfgs.length) }
        (p.events.take k)
    refine ⟨news, h2, ?_, ?_⟩
    · simp only [Player.add, hk]
      rw [h1]
    · simp only [Player.add, hk]
      rw [h3]
  · rfl

/-- Witness for C1 at a concrete marker position. -/
theorem C1_nested_callback_splice_witness :
    ∃ news : List Playable,
      news.length = 1 ∧
      (Player.add Option.none [ { type := some "click" } ] nestedEnv
        { pendingFn := some 1,
          events := [ { id := 9 }, { id := 8 } ] }).events
        = [ ({ id := 9 } : Playable) ] ++ news ++ [ ({ id := 8 } : Playable) ] ∧
      (Player.add Option.none [ { type := some "click" } ] nestedEnv
        { pendingFn := some 1,
          events := [ { id := 9 }, { id := 8 } ] }).pendingFn = some 2 :=
  C1_nested_callback_splice.1 nestedEnv
    { pendingFn := some 1, events := [ { id := 9 }, { id := 8 } ] }
    [ { type := some "click" } ] 1 rfl

/-! ## C2 — playable state machine and terminal states -/

/-- C2 counterexample: in the concrete run where `#missing` never resolves
and the 5 ms timeout is exceeded, the playable's state history is
`queued → pending → done` — `doTimeout` (Player.js line 490) assigns
`'done'`, never `'timed-out'` — even though the run does fail with the
timeout error.  So the claim that such a playable terminates in state
`'timed-out'` is false. -/
theorem C2_counterexample_timeout_state :
    historyOf missingRun 1 = ["queued", "pending", "done"] ∧
    missingRun.getSt 1 ≠ "timed-out" ∧
    missingRun.fired = ["error", "end"] := by
  exact ⟨rfl, by decide, rfl⟩

/-- C2 (amended): every playable enters `queued` exactly once at enqueue
and the only terminal state the code ever assigns is `done`: `doTimeout`
marks a pending/playing playable `done` (there is no `timed-out` state),
and a playable whose callback throws is abandoned in state `playing`
(there is no `errored` state) while the error is surfaced through the
player's `error` event.  In the fully drained nested run every playable's
state history is exactly `queued, pending, playing, done`. -/
theorem C2_terminal_states :
    (∀ (env : Env) (e : Playable) (p : Player),
        p.getSt e.id = "pending" ∨ p.getSt e.id = "playing" →
        (p.doTimeout env e).getSt e.id = "done") ∧
    historyOf throwRun 1 = ["queued", "pending", "playing"] ∧
    throwRun.fired = ["error", "end"] ∧
    (∀ id ∈ [1, 2, 3, 4],
        historyOf nestedRun id = ["queued", "pending", "playing", "done"]) := by
  refine ⟨?_, rfl, rfl, by decide⟩
  intro env e p h
  unfold Player.doTimeout
  have hguard : (p.getSt e.id != "pending" && p.getSt e.id != "playing") = false := by
    rcases h with h | h <;> simp [h]
  simp only [hguard, Bool.false_eq_true, if_false, getSt_fail, getSt_setSt]

/-- Witness for C2 at a concrete pending playable. -/
theorem C2_terminal_states_witness :
    (Player.doTimeout {} { id := 1 }
        { stateLog := [(1, "pending")] }).getSt 1 = "done" ∧
    historyOf nestedRun 1 = ["queued", "pending", "playing", "done"] :=
  ⟨C2_terminal_states.1 {} { id := 1 } { stateLog := [(1, "pending")] }
      (Or.inl (by decide)),
   C2_terminal_states.2.2.2 1 (by decide)⟩

/-! ## C3 — tap expansion -/

/-- C3 counterexample: playing a tap dispatches exactly *three* DOM events
through the injector — `pointerdown`, `pointerup`, `click` — not four: the
fourth spliced item is a `wait` playable, which `playEvent` (Player.js
line 422) explicitly excludes from injection.  So the claim that "exactly
four DOM events are dispatched" is false on the concrete S1 run. -/
theorem C3_counterexample_dispatch_count :
    tapRun.injected
      = [("pointerdown", some 7), ("pointerup", some 7), ("click", some 7)] ∧
    tapRun.injected.length = 3 ∧ tapRun.injected.length ≠ 4 := by
  exact ⟨rfl, rfl, by decide⟩

/-- C3 (amended): a `tap` is kept unexpanded at enqueue time (`add`
preserves the `type`) and expanded at play time by `expandTap` into exactly
four items spliced at the queue head in fixed order — `pointerdown`
(original target, original delay, x/y), `pointerup` (target back-reference
−1 promoted to the pointerdown, zero delay), `click` (back-reference −2,
promoted to the pointerdown, zero delay), and a `wait` whose readiness is
the gesture-completion hook (true immediately when no collaborator is
registered) — with the modifier options copied onto every sub-event.  Of
these, exactly the three real events are dispatched, in order, and every
dispatched sub-event carries the same resolved element (7) that the
original tap's locator `#btn` resolves to. -/
theorem C3_tap_expansion :
    (∀ (ctx : AddCtx) (q : List Playable) (id : Nat) (e : Playable),
        (promoteOne ctx q id e).1.type = e.type) ∧
    (∀ (env : Env) (p : Player) (e : Playable) (s : String) (d : Nat),
        e.target = Target.loc s → e.delay = some d →
        ∃ pd pu ck wt : Playable,
          (p.expandTap env e).events = pd :: pu :: ck :: wt :: p.events ∧
          pd.type = some "pointerdown" ∧ pd.target = Target.loc s ∧
          pd.delay = some d ∧ pd.x = e.x ∧ pd.y = e.y ∧
          pu.type = some "pointerup" ∧ pu.target = Target.ref pd.id ∧
          pu.delay = some 0 ∧
          ck.type = some "click" ∧ ck.target = Target.ref pd.id ∧
          ck.delay = some 0 ∧
          wt.type = some "wait" ∧ wt.target = Target.ref pu.id ∧
          wt.ready = some ReadyHook.tapGesture ∧
          modsFrom pd e ∧ modsFrom pu e ∧ modsFrom ck e ∧ modsFrom wt e) ∧
    (tapStart.events.map (fun e => e.type) = [some "tap"] ∧
     playedOrder tapRun = [1, 2, 3, 4, 5] ∧
     tapRun.injected
       = [("pointerdown", some 7), ("pointerup", some 7), ("click", some 7)] ∧
     tapEnv.find "#btn" = some 7 ∧
     tapRun.resolvedEl 1 false = some 7 ∧
     tapRun.fired = ["end"]) := by
  refine ⟨?_, ?_, rfl, rfl, rfl, rfl, rfl, rfl⟩
  · intro ctx q id e
    simp only [promoteOne, Playable.construct]
    split <;> rfl
  · intro env p e s d ht hd
    unfold Player.expandTap tapEvents applyIfMods
    rw [ht, hd]
    split
    all_goals
      exact ⟨_, _, _, _, rfl, rfl, rfl, rfl, rfl, rfl, rfl, rfl, rfl, rfl,
        rfl, rfl, rfl, rfl, rfl,
        ⟨rfl, rfl, rfl, rfl, rfl⟩, ⟨rfl, rfl, rfl, rfl, rfl⟩,
        ⟨rfl, rfl, rfl, rfl, rfl⟩, ⟨rfl, rfl, rfl, rfl, rfl⟩⟩

/-- Witness for C3 at a concrete tap. -/
theorem C3_tap_expansion_witness :
    ∃ pd pu ck wt : Playable,
      (Player.expandTap tapEnv
          { type := some "tap", target := Target.loc "#btn",
            delay := some 3, metaKey := some true } {}).events
        = pd :: pu :: ck :: wt :: ([] : List Playable) ∧
      pd.type = some "pointerdown" ∧ pd.target = Target.loc "#btn" ∧
      pd.delay = some 3 ∧
      pd.x = ({ type := some "tap", target := Target.loc "#btn",
                delay := some 3, metaKey := some true } : Playable).x ∧
      pd.y = ({ type := some "tap", target := Target.loc "#btn",
                delay := some 3, metaKey := some true } : Playable).y ∧
      pu.type = some "pointerup" ∧ pu.target = Target.ref pd.id ∧
      pu.delay = some 0 ∧
      ck.type = some "click" ∧ ck.target = Target.ref pd.id ∧
      ck.delay = some 0 ∧
      wt.type = some "wait" ∧ wt.target = Target.ref pu.id ∧
      wt.ready = some ReadyHook.tapGesture ∧
      modsFrom pd { type := some "tap", target := Target.loc "#btn",
                    delay := some 3, metaKey := some true } ∧
      modsFrom pu { type := some "tap", target := Target.loc "#btn",
                    delay := some 3, metaKey := some true } ∧
      modsFrom ck { type := some "tap", target := Target.loc "#btn",
                    delay := some 3, metaKey := some true } ∧
      modsFrom wt { type := some "tap", target := Target.loc "#btn",
                    delay := some 3, metaKey := some true } :=
  C3_tap_expansion.2.1 tapEnv {}
    { type := some "tap", target := Target.loc "#btn",
      delay := some 3, metaKey := some true } "#btn" 3 rfl rfl

/-! ## C4 — timeout clock semantics -/

/-- C4: the timeout clock is *not* started at enqueue (`add` never touches
`waitStartTime`); it is stamped at the first not-ready observation; the
gate times out exactly when the playable is not ready, a `waitStartTime`
has been stamped, the timeout is nonzero and `now - waitStartTime` has
reached it; a not-ready playable with timeout 0 never times out under any
polling schedule, and still plays at the first ready observation. -/
theorem C4_timeout_clock :
    (∀ (ctx : AddCtx) (q : List Playable) (id : Nat) (c : Playable),
        (promoteOne ctx q id c).1.waitStartTime = c.waitStartTime) ∧
    (∀ (now : Nat) (e : Playable), e.waitStartTime = 0 →
        playEventCheck false now e
          = PlayDecision.wait { e with waitStartTime := now }) ∧
    (∀ (ready : Bool) (now : Nat) (e : Playable),
        playEventCheck ready now e = PlayDecision.timedOut ↔
          ready = false ∧ e.waitStartTime ≠ 0 ∧ e.timeout.getD 0 ≠ 0 ∧
          e.timeout.getD 0 ≤ now - e.waitStartTime) ∧
    (∀ (readyAt : Nat → Bool) (clockAt : Nat → Nat) (fuel k j : Nat)
        (e : Playable), e.timeout.getD 0 = 0 →
        pollRun readyAt clockAt fuel k e ≠ PollResult.timedOutAt j) ∧
    (∀ (readyAt : Nat → Bool) (clockAt : Nat → Nat) (fuel k : Nat)
        (e : Playable), readyAt k = true →
        pollRun readyAt clockAt (fuel + 1) k e = PollResult.played k) := by
  refine ⟨?_, ?_, ?_, ?_, ?_⟩
  · intro ctx q id c
    simp only [promoteOne, Playable.construct]
    split <;> rfl
  · intro now e h
    simp [playEventCheck, h]
  · intro ready now e
    cases ready with
    | true => simp [playEventCheck]
    | false =>
      have hstep : playEventCheck false now e = PlayDecision.timedOut ↔
          (e.waitStartTime != 0 && e.timeout.getD 0 != 0
            && decide (e.timeout.getD 0 ≤ now - e.waitStartTime)) = true := by
        unfold playEventCheck
        simp only [Bool.not_false, if_true]
        split
        next hc => simp [hc]
        next hc => simp [hc]
      rw [hstep]
      simp [Bool.and_eq_true, bne_iff_ne, decide_eq_true_eq, and_assoc]
  · intro readyAt clockAt fuel
    induction fuel with
    | zero => intro k j e _; simp [pollRun]
    | succ n ih =>
      intro k j e h
      cases hr : readyAt k with
      | true => simp [pollRun, playEventCheck, hr]
      | false =>
        have hchk : playEventCheck false (clockAt k) e
            = PlayDecision.wait
              (if e.waitStartTime = 0 then { e with waitStartTime := clockAt k }
               else e) := by
          simp [playEventCheck, h]
        have htmo : (if e.waitStartTime = 0
            then { e with waitStartTime := clockAt k } else e).timeout.getD 0
            = 0 := by
          split <;> exact h
        simp only [pollRun, hr, hchk]
        exact ih (k + 1) j _ htmo
  · intro readyAt clockAt fuel k e h
    simp [pollRun, playEventCheck, h]

/-- Witness for C4 at concrete inputs. -/
theorem C4_timeout_clock_witness :
    playEventCheck false 42 { timeout := some 100 }
      = PlayDecision.wait { timeout := some 100, waitStartTime := 42 } ∧
    (playEventCheck false 400 { timeout := some 100, waitStartTime := 42 }
      = PlayDecision.timedOut ↔
        (false = false ∧ (42 : Nat) ≠ 0 ∧ (100 : Nat) ≠ 0 ∧
         (100 : Nat) ≤ 400 - 42)) ∧
    pollRun (fun k => decide (5 ≤ k)) (fun k => 10 * k) 9 0
        { timeout := some 0 } ≠ PollResult.timedOutAt 3 ∧
    pollRun (fun _ => true) (fun k => 10 * k) 3 0 { timeout := some 0 }
      = PollResult.played 0 :=
  ⟨C4_timeout_clock.2.1 42 { timeout := some 100 } rfl,
   C4_timeout_clock.2.2.1 false 400 { timeout := some 100, waitStartTime := 42 },
   C4_timeout_clock.2.2.2.1 (fun k => decide (5 ≤ k)) (fun k => 10 * k) 9 0 3
     { timeout := some 0 } rfl,
   C4_timeout_clock.2.2.2.2 (fun _ => true) (fun k => 10 * k) 2 0
     { timeout := some 0 } rfl⟩

/-! ## C5 — Block completion protocol -/

/-- C5: over every scenario shape (async or not, player engaged or not,
user function throwing or not, synchronous `done` inside the call or not,
watchdog expiry vs. user `done`, either delivery order) and assuming the
outstanding player-`end`/watchdog notifications are eventually delivered,
the Block calls the test framework's `done` exactly once; at the moment of
the call either the user function had thrown (the error was reported as a
failure, and the block still terminates through the callback) or both the
watchdog had reported / was never armed (`me.watchDog = null`) and the
player had drained / was never engaged (`me.playing = false`). -/
theorem C5_block_done_once :
    ∀ a w t d we ef : Bool,
      (blockRun ⟨a, w, t, d, we, ef⟩).doneRecords.length = 1 ∧
      (∀ r ∈ (blockRun ⟨a, w, t, d, we, ef⟩).doneRecords,
        r.1 = true ∨ (r.2.1 = false ∧ r.2.2 = false)) ∧
      (t = true → 1 ≤ (blockRun ⟨a, w, t, d, we, ef⟩).failures) := by
  decide

/-- Witness for C5 at a concrete scenario (throwing, async, playing). -/
theorem C5_block_done_once_witness :
    (blockRun ⟨true, true, true, false, false, true⟩).doneRecords.length = 1 ∧
    1 ≤ (blockRun ⟨true, true, true, false, false, true⟩).failures :=
  ⟨(C5_block_done_once true true true false false true).1,
   (C5_block_done_once true true true false false true).2.2 rfl⟩

/-! ## C6 — failure propagation -/

/-- C6 counterexample: a callback playable that never calls `done` leaves
the player idle (`pendingEvent` cleared by `playFn` line 367, queue empty);
when its WatchDog then expires, `doTimeout` marks it `done` but `fail`'s
guard (Player.js line 466) sees neither a pending event nor queued events
and does *nothing* — no `error` event, no `end` event is fired.  So the
claim that a failed (timed-out) playable always empties the queue and fires
`error` then `end` is false on this concrete run. -/
theorem C6_counterexample_silent_timeout :
    stalledRun.pendingEvent = Option.none ∧
    stalledRun.events = [] ∧
    stalledRun.getSt 1 = "playing" ∧
    stalledAfterWd.getSt 1 = "done" ∧
    stalledAfterWd.fired = [] ∧
    stalledAfterWd.errorMsgs = [] := by
  exact ⟨rfl, rfl, rfl, rfl, rfl, rfl⟩

/-- C6 (amended): whenever a playable fails while an event is pending or
the queue is non-empty — which covers a user callback throwing with
exception handling enabled, and a readiness wait exceeding its timeout —
the Player empties the queue, fires `error` with a human-readable message,
then fires `end`.  (The one escape is a callback whose completion watchdog
expires after the player has gone idle on an empty queue, per the
counterexample.)  Concretely: the throwing run fails with
`Failed with error "boom"`, and the `#missing` timeout run fails with
`Timeout waiting for target (#missing) to be available for click`. -/
theorem C6_fail_empties_queue_and_fires :
    (∀ (p : Player) (msg : String),
        p.pendingEvent.isSome = true ∨ p.events ≠ [] →
        (p.fail msg).events = [] ∧
        (p.fail msg).fired = p.fired ++ ["error", "end"] ∧
        (p.fail msg).errorMsgs = p.errorMsgs ++ [msg]) ∧
    (throwRun.events = [] ∧ throwRun.fired = ["error", "end"] ∧
     throwRun.errorMsgs = ["Failed with error \"boom\""]) ∧
    (missingRun.events = [] ∧ missingRun.fired = ["error", "end"] ∧
     missingRun.errorMsgs
       = ["Timeout waiting for target (#missing) to be available for click"]) := by
  refine ⟨?_, ⟨rfl, rfl, rfl⟩, ⟨rfl, rfl, rfl⟩⟩
  intro p msg h
  have hguard : (p.pendingEvent.isSome || !p.events.isEmpty) = true := by
    rcases h with h | h
    · simp [h]
    · simp [List.isEmpty_iff, h]
  unfold Player.fail Player.onEnd Player.cleanup
  rw [hguard]
  simp

/-- Witness for C6 at a concrete failing player. -/
theorem C6_fail_empties_queue_and_fires_witness :
    (Player.fail "oops" { events := [ { id := 3 } ] }).events = [] ∧
    (Player.fail "oops" { events := [ { id := 3 } ] }).fired
      = [] ++ ["error", "end"] ∧
    (Player.fail "oops" { events := [ { id := 3 } ] }).errorMsgs
      = [] ++ ["oops"] :=
  C6_fail_empties_queue_and_fires.1 { events := [ { id := 3 } ] } "oops"
    (Or.inr (by decide))

/-! ## C7 — the selection validator -/

/-- C7: for an id- or index-addressed request, `select` mode validates
exactly when every resolved record is in the selection set *and* as many
records resolved as ids/indexes were requested; `deselect` mode (with the
count guard satisfied) validates exactly when no resolved record is
selected; and whenever fewer records resolve than ids/indexes were
requested the validator returns `false` for every possible selection set
(the guard short-circuits before any element comparison). -/
theorem C7_selection_validator :
    (∀ (s : SelStore) (selections : List Nat) (l : List Nat),
        l ≠ [] →
        (validateSelections s selections
            { mode := "select", type := "id", ids := some l } = true ↔
          (l.filterMap s.getById).length = l.length ∧
          ∀ r ∈ l.filterMap s.getById, r ∈ selections)) ∧
    (∀ (s : SelStore) (selections : List Nat) (l : List Nat),
        l ≠ [] → (l.filterMap s.getById).length = l.length →
        (validateSelections s selections
            { mode := "deselect", type := "id", ids := some l } = true ↔
          ∀ r ∈ l.filterMap s.getById, r ∉ selections)) ∧
    (∀ (s : SelStore) (selections : List Nat) (l : List Nat) (m : String),
        l ≠ [] → (l.filterMap s.getById).length ≠ l.length →
        validateSelections s selections
          { mode := m, type := "id", ids := some l } = false) ∧
    (∀ (s : SelStore) (selections : List Nat) (l : List Nat),
        (validateSelections s selections
            { mode := "select", type := "index", indexes := some l } = true ↔
          (l.filterMap s.getAt).length = l.length ∧
          ∀ r ∈ l.filterMap s.getAt, r ∈ selections)) ∧
    (∀ (s : SelStore) (selections : List Nat) (l : List Nat),
        (l.filterMap s.getAt).length = l.length →
        (validateSelections s selections
            { mode := "deselect", type := "index", indexes := some l } = true ↔
          ∀ r ∈ l.filterMap s.getAt, r ∉ selections)) ∧
    (∀ (s : SelStore) (selections : List Nat) (l : List Nat) (m : String),
        (l.filterMap s.getAt).length ≠ l.length →
        validateSelections s selections
          { mode := m, type := "index", indexes := some l } = false) := by
  refine ⟨?_, ?_, ?_, ?_, ?_, ?_⟩
  · intro s sel l hl
    have h0 : l.length ≠ 0 := by simpa [List.length_eq_zero] using hl
    by_cases hm : (l.filterMap s.getById).length = l.length
    · have hred : validateSelections s sel
          { mode := "select", type := "id", ids := some l }
          = ((l.filterMap s.getById).countP (fun r => sel.contains r)
              == (l.filterMap s.getById).length) := by
        simp [validateSelections, SelStore.getRecords, expectedLen, h0, hm]
      rw [hred]
      simp only [beq_iff_eq]
      rw [List.countP_eq_length]
      simp [hm, List.mem_filterMap]
    · simp [validateSelections, SelStore.getRecords, expectedLen, h0,
        Ne.symm hm, hm]
  · intro s sel l hl hm
    have h0 : l.length ≠ 0 := by simpa [List.length_eq_zero] using hl
    simp [validateSelections, SelStore.getRecords, expectedLen, h0, hm,
      List.countP_eq_zero]
  · intro s sel l m hl hm
    have h0 : l.length ≠ 0 := by simpa [List.length_eq_zero] using hl
    simp [validateSelections, SelStore.getRecords, expectedLen, h0, Ne.symm hm]
  · intro s sel l
    by_cases hm : (l.filterMap s.getAt).length = l.length
    · have hred : validateSelections s sel
          { mode := "select", type := "index", indexes := some l }
          = ((l.filterMap s.getAt).countP (fun r => sel.contains r)
              == (l.filterMap s.getAt).length) := by
        simp [validateSelections, SelStore.getRecords, expectedLen, hm]
      rw [hred]
      simp only [beq_iff_eq]
      rw [List.countP_eq_length]
      simp [hm, List.mem_filterMap]
    · simp [validateSelections, SelStore.getRecords, expectedLen,
        Ne.symm hm, hm]
  · intro s sel l hm
    simp [validateSelections, SelStore.getRecords, expectedLen, hm,
      List.countP_eq_zero]
  · intro s sel l m hm
    simp [validateSelections, SelStore.getRecords, expectedLen, Ne.symm hm]

/-- Witness for C7: store with records 1..4 (identity ids), selection
set {1, 3}, request ids [1, 3]; an unresolvable id request short-circuits;
and an index-addressed deselect and short-circuit on concrete stores. -/
theorem C7_selection_validator_witness :
    (validateSelections { data := [1, 2, 3, 4] } [1, 3]
        { mode := "select", type := "id", ids := some [1, 3] } = true ↔
      (([1, 3] : List Nat).filterMap
          (SelStore.getById { data := [1, 2, 3, 4] })).length
        = ([1, 3] : List Nat).length ∧
      ∀ r ∈ ([1, 3] : List Nat).filterMap
          (SelStore.getById { data := [1, 2, 3, 4] }), r ∈ ([1, 3] : List Nat)) ∧
    validateSelections { data := [1, 2] } [2]
      { mode := "select", type := "id", ids := some [1, 3] } = false ∧
    (validateSelections { data := [10, 20, 30] } [20]
        { mode := "deselect", type := "index", indexes := some [0, 2] } = true ↔
      ∀ r ∈ ([0, 2] : List Nat).filterMap
          (SelStore.getAt { data := [10, 20, 30] }), r ∉ ([20] : List Nat)) ∧
    validateSelections { data := [10, 20] } [20]
      { mode := "select", type := "index", indexes := some [0, 5] } = false :=
  ⟨C7_selection_validator.1 { data := [1, 2, 3, 4] } [1, 3] [1, 3] (by decide),
   C7_selection_validator.2.2.1 { data := [1, 2] } [2] [1, 3] "select"
     (by decide) (by decide),
   C7_selection_validator.2.2.2.2.1 { data := [10, 20, 30] } [20] [0, 2]
     (by decide),
   C7_selection_validator.2.2.2.2.2 { data := [10, 20] } [20] [0, 5] "select"
     (by decide)⟩

/-! ## C8 — pause semantics -/

/-- C8: `pause` un-shifts the pending event and re-queues it when called
from outside a callback, and suppresses the un-shift when called from
inside a callback *that has already enqueued something* (`pendingFn ≥ 1`).
But the guard `!me.pendingFn` (Player.js line 293) treats the marker value
`0` — which is exactly what `playFn` sets before invoking the callback —
as falsy, so a pause issued from inside a callback **before it enqueues
anything** *does* un-shift the pending event and reset it to `queued`,
contradicting the source's own comment ("Put back the pending event unless
we are called from its `fn`") and the claim. -/
theorem C8_pause_unshift_behavior :
    ((pausedOutsideP.pause).events.map (fun e => e.id) = [1, 2] ∧
     (pausedOutsideP.pause).getSt 1 = "queued") ∧
    ((pausedInsideAfterAddP.pause).events.map (fun e => e.id) = [3, 4, 2] ∧
     (pausedInsideAfterAddP.pause).pendingEvent.isSome = true) ∧
    (pausedInsideFnP.pendingFn = some 0 ∧
     (pausedInsideFnP.pause).events.map (fun e => e.id) = [1, 2] ∧
     (pausedInsideFnP.pause).getSt 1 = "queued") := by
  exact ⟨⟨rfl, rfl⟩, ⟨rfl, rfl⟩, ⟨rfl, rfl, rfl⟩⟩

/-! ## C9 — `ST.options.timeout = 0` disables all timeouts -/

/-- C9: when the global `ST.options.timeout` is 0, `add` forces every
enqueued playable's timeout to 0 (overriding even an explicitly supplied
one), `ST.timeout` never arms a timer (a no-op even for explicit
millisecond values), and a fresh WatchDog therefore has no armed timer and
its tick is inert. -/
theorem C9_global_timeout_zero :
    (∀ (ctx : AddCtx) (q : List Playable) (id : Nat) (c : Playable),
        ctx.optionsTimeout = 0 → (promoteOne ctx q id c).1.timeout = some 0) ∧
    (∀ millisec : Option Nat, STtimeout 0 millisec = Option.none) ∧
    (∀ t : Option Nat,
        (WatchDog.new 0 t).timer = Option.none ∧
        (WatchDog.new 0 t).onTick = WatchDog.new 0 t ∧
        (WatchDog.new 0 t).calls = []) := by
  refine ⟨?_, ?_, ?_⟩
  · intro ctx q id c h
    simp only [promoteOne, h]
    rfl
  · intro millisec
    rfl
  · intro t
    exact ⟨rfl, rfl, rfl⟩

/-- Witness for C9: an explicit per-playable timeout of 500 ms is forced
to 0, and an explicit `ST.timeout` delay arms nothing. -/
theorem C9_global_timeout_zero_witness :
    (promoteOne ⟨Option.none, true, Option.none, 0⟩ [] 1
        { type := some "click", timeout := some 500 }).1.timeout = some 0 ∧
    STtimeout 0 (some 500) = Option.none :=
  ⟨C9_global_timeout_zero.1 ⟨Option.none, true, Option.none, 0⟩ [] 1
      { type := some "click", timeout := some 500 } rfl,
   C9_global_timeout_zero.2.1 (some 500)⟩

/-! ## C10 — WatchDog fires at most once -/

/-- `cancel` leaves the callback alone. -/
theorem cancel_callback (w : WatchDog) : w.cancel.callback = w.callback := by
  unfold WatchDog.cancel; split <;> rfl

/-- `cancel` leaves the call log alone. -/
theorem cancel_calls (w : WatchDog) : w.cancel.calls = w.calls := by
  unfold WatchDog.cancel; split <;> rfl

/-- After `cancel` no timer is armed. -/
theorem cancel_timer (w : WatchDog) : w.cancel.timer = Option.none := by
  unfold WatchDog.cancel
  split
  · rfl
  · next heq => exact heq

/-- `fire` on a WatchDog whose callback is gone changes nothing visible. -/
theorem fire_frozen (w : WatchDog) (e : Option String) (h : w.callback = false) :
    (w.fire e).calls = w.calls ∧ (w.fire e).callback = false := by
  unfold WatchDog.fire
  simp [cancel_callback, cancel_calls, h]

/-- A WatchDog whose callback is gone can never invoke it again (one op). -/
theorem wd_frozen_step (w : WatchDog) (op : WdOp) (h : w.callback = false) :
    (w.stepOp op).calls = w.calls ∧ (w.stepOp op).callback = false := by
  cases op with
  | done => exact fire_frozen w Option.none h
  | fail msg => exact fire_frozen w (some msg) h
  | tick =>
    show (w.onTick).calls = w.calls ∧ (w.onTick).callback = false
    unfold WatchDog.onTick
    cases ht : w.timer with
    | none => exact ⟨rfl, h⟩
    | some tm =>
      exact fire_frozen { w with timer := Option.none, timeoutMs := Option.none } _ h
  | cancel =>
    refine ⟨cancel_calls w, ?_⟩
    show w.cancel.callback = false
    rw [cancel_callback]; exact h
  | destroy =>
    show (w.destroy).calls = w.calls ∧ (w.destroy).callback = false
    exact ⟨cancel_calls w, rfl⟩

/-- A WatchDog whose callback is gone can never invoke it again (any ops). -/
theorem wd_frozen_run (ops : List WdOp) :
    ∀ w : WatchDog, w.callback = false →
      (w.runOps ops).calls = w.calls ∧ (w.runOps ops).callback = false := by
  induction ops with
  | nil => intro w h; exact ⟨rfl, h⟩
  | cons op rest ih =>
    intro w h
    obtain ⟨h1, h2⟩ := wd_frozen_step w op h
    obtain ⟨h3, h4⟩ := ih (w.stepOp op) h2
    exact ⟨by rw [WatchDog.runOps, List.foldl_cons, ← WatchDog.runOps, h3, h1],
           by rw [WatchDog.runOps, List.foldl_cons, ← WatchDog.runOps]; exact h4⟩

/-- One step preserves the at-most-once invariant. -/
theorem wd_inv_step (w : WatchDog) (op : WdOp)
    (h : (w.callback = true → w.calls = []) ∧ w.calls.length ≤ 1) :
    ((w.stepOp op).callback = true → (w.stepOp op).calls = []) ∧
      (w.stepOp op).calls.length ≤ 1 := by
  have hfire : ∀ (v : WatchDog) (e : Option String),
      (v.callback = true → v.calls = []) → v.calls.length ≤ 1 →
      ((v.fire e).callback = true → (v.fire e).calls = []) ∧
        (v.fire e).calls.length ≤ 1 := by
    intro v e hv hlen
    unfold WatchDog.fire
    cases hc : v.callback with
    | true =>
      simp [cancel_callback, cancel_calls, hc, hv hc]
    | false =>
      simp [cancel_callback, cancel_calls, hc, hlen]
  cases op with
  | done => exact hfire w Option.none h.1 h.2
  | fail msg => exact hfire w (some msg) h.1 h.2
  | tick =>
    show ((w.onTick).callback = true → (w.onTick).calls = []) ∧
      (w.onTick).calls.length ≤ 1
    unfold WatchDog.onTick
    cases ht : w.timer with
    | none => exact h
    | some tm =>
      exact hfire { w with timer := Option.none, timeoutMs := Option.none } _
        h.1 h.2
  | cancel =>
    constructor
    · show w.cancel.callback = true → w.cancel.calls = []
      rw [cancel_callback, cancel_calls]
      exact h.1
    · show w.cancel.calls.length ≤ 1
      rw [cancel_calls]
      exact h.2
  | destroy =>
    show ((w.destroy).callback = true → (w.destroy).calls = []) ∧
      (w.destroy).calls.length ≤ 1
    constructor
    · intro hc
      exact absurd hc (by simp [WatchDog.destroy])
    · show w.cancel.calls.length ≤ 1
      rw [cancel_calls]
      exact h.2

/-- Any op sequence preserves the at-most-once invariant. -/
theorem wd_inv_run (ops : List WdOp) :
    ∀ w : WatchDog,
      (w.callback = true → w.calls = []) ∧ w.calls.length ≤ 1 →
      ((w.runOps ops).callback = true → (w.runOps ops).calls = []) ∧
        (w.runOps ops).calls.length ≤ 1 := by
  induction ops with
  | nil => intro w h; exact h
  | cons op rest ih =>
    intro w h
    have h' := wd_inv_step w op h
    have := ih (w.stepOp op) h'
    rw [WatchDog.runOps, List.foldl_cons, ← WatchDog.runOps]
    exact this

/-- C10: whichever of `done`, `fail`, or the armed deadline timer fires
first cancels the pending timer, clears the stored callback and invokes it
exactly once (with `null`, the error, or the composed timeout message
respectively); under every operation sequence a WatchDog invokes its
callback at most once; once the callback is gone every further `done`,
`fail` or tick is a no-op; and after `destroy` the callback is never
invoked at all. -/
theorem C10_watchdog_fires_once :
    (∀ (w : WatchDog) (msg : String), w.callback = true →
        ((w.stepOp WdOp.done).callback = false ∧
         (w.stepOp WdOp.done).timer = Option.none ∧
         (w.stepOp WdOp.done).calls = w.calls ++ [Option.none]) ∧
        ((w.stepOp (WdOp.fail msg)).callback = false ∧
         (w.stepOp (WdOp.fail msg)).timer = Option.none ∧
         (w.stepOp (WdOp.fail msg)).calls = w.calls ++ [some msg]) ∧
        (w.timer.isSome = true →
          (w.stepOp WdOp.tick).callback = false ∧
          (w.stepOp WdOp.tick).timer = Option.none ∧
          ∃ m, (w.stepOp WdOp.tick).calls = w.calls ++ [some m])) ∧
    (∀ (opts : Nat) (t : Option Nat) (ops : List WdOp),
        ((WatchDog.new opts t).runOps ops).calls.length ≤ 1) ∧
    (∀ (w : WatchDog) (ops : List WdOp), w.callback = false →
        (w.runOps ops).calls = w.calls) ∧
    (∀ (opts : Nat) (t : Option Nat) (ops : List WdOp),
        (((WatchDog.new opts t).destroy).runOps ops).calls = []) := by
  refine ⟨?_, ?_, ?_, ?_⟩
  · intro w msg h
    have hfire : ∀ e : Option String,
        (w.fire e).callback = false ∧ (w.fire e).timer = Option.none ∧
          (w.fire e).calls = w.calls ++ [e] := by
      intro e
      unfold WatchDog.fire
      simp [cancel_callback, cancel_calls, cancel_timer, h]
    refine ⟨hfire Option.none, hfire (some msg), ?_⟩
    intro ht
    cases hw : w.timer with
    | none => rw [hw] at ht; exact absurd ht (by simp)
    | some tm =>
      have hfire' : ∀ e : Option String,
          (WatchDog.fire e { w with timer := Option.none, timeoutMs := Option.none }).callback
              = false ∧
            (WatchDog.fire e { w with timer := Option.none, timeoutMs := Option.none }).timer
              = Option.none ∧
            (WatchDog.fire e { w with timer := Option.none, timeoutMs := Option.none }).calls
              = w.calls ++ [e] := by
        intro e
        unfold WatchDog.fire
        simp [cancel_callback, cancel_calls, cancel_timer, h]
      show (w.onTick).callback = false ∧ (w.onTick).timer = Option.none ∧
        ∃ m, (w.onTick).calls = w.calls ++ [some m]
      unfold WatchDog.onTick
      rw [hw]
      refine ⟨(hfire' _).1, (hfire' _).2.1, _, (hfire' _).2.2⟩
  · intro opts t ops
    refine (wd_inv_run ops (WatchDog.new opts t) ⟨fun _ => rfl, ?_⟩).2
    show (List.length []) ≤ 1
    simp
  · intro w ops h
    exact (wd_frozen_run ops w h).1
  · intro opts t ops
    have hd : ((WatchDog.new opts t).destroy).callback = false := rfl
    have hc : ((WatchDog.new opts t).destroy).calls = [] := by
      show ((WatchDog.new opts t).cancel).calls = []
      rw [cancel_calls]
      rfl
    rw [(wd_frozen_run ops _ hd).1, hc]

/-- Witness for C10 at a concrete armed WatchDog and op sequence. -/
theorem C10_watchdog_fires_once_witness :
    ((WatchDog.new 1000 (some 50)).stepOp WdOp.done).callback = false ∧
    ((WatchDog.new 1000 (some 50)).stepOp WdOp.done).calls
      = [] ++ [Option.none] ∧
    ((WatchDog.new 1000 (some 50)).runOps
        [WdOp.done, WdOp.done, WdOp.tick, WdOp.fail "late"]).calls.length ≤ 1 ∧
    (((WatchDog.new 1000 (some 50)).destroy).runOps
        [WdOp.tick, WdOp.done]).calls = [] :=
  ⟨((C10_watchdog_fires_once.1 (WatchDog.new 1000 (some 50)) "m" rfl).1).1,
   ((C10_watchdog_fires_once.1 (WatchDog.new 1000 (some 50)) "m" rfl).1).2.2,
   C10_watchdog_fires_once.2.1 1000 (some 50)
     [WdOp.done, WdOp.done, WdOp.tick, WdOp.fail "late"],
   C10_watchdog_fires_once.2.2.2 1000 (some 50) [WdOp.tick, WdOp.done]⟩

end Orion
